import Mathlib

/-!
# Verification of the creative-prompt pipeline

A shallow embedding, in Lean 4, of the parts of the
`claude-prompt-creator` repository that its specification makes testable
claims about: the rule-based mode classifier and round planner
(`src/core/ModeInference.ts`), the output-file writer
(`src/services/FileService.ts`), the expert registry's mode-sensitive
prompt assembly (`src/core/ExpertRegistry.ts`), the in-memory
expert-interaction bookkeeping (`OpenAIService`), the memory store
(`MemoryService`), the dynamic agent factory (`DynamicAgentFactory`),
and the orchestrator (`CreativeAILoop.run`).

JavaScript strings are modelled as Lean `String`; regular-expression
word matching (`\b...\b`) is modelled by an explicit word-boundary
scanner; SQLite rows are modelled as lists of structured records with
the column defaults written out; floating-point statistics are modelled
over `ℚ` (every value the claims mention is exactly representable);
effectful code is modelled by explicit state passing, with each external
call (LLM, terminal, filesystem, database) an `Except`-valued input.
-/

set_option maxRecDepth 8192

namespace CreativePrompt

/-- The three task modes of `ModeInference.ts` (`type Mode`). -/
inductive Mode where
  | pr
  | design_review
  | explore
deriving DecidableEq, Repr

/-- One deliberation round (`interface Round`): a focus label and a lead
persona name. -/
structure Round where
  focus : String
  lead : String
deriving DecidableEq, Repr

/-- JavaScript `String.prototype.toLowerCase`, modelled character by
character (all text the claims mention is ASCII). -/
def toLowerStr (s : String) : String :=
  ⟨s.data.map Char.toLower⟩

/-- A JavaScript word character, as used by the regex `\b` boundary:
`[A-Za-z0-9_]`. -/
def wordChar (c : Char) : Bool :=
  c.isAlpha || c.isDigit || c = '_'

/-- A position boundary is acceptable when the neighbouring character
(if any) is not a word character. -/
def boundaryOk : Option Char → Bool
  | none => true
  | some c => !wordChar c

/-- Scan a character list for an occurrence of `k` delimited by word
boundaries on both sides, keeping track of the previous character. -/
def hasWordAux (k : List Char) : Option Char → List Char → Bool
  | _, [] => false
  | prev, c :: rest =>
      (boundaryOk prev && k.isPrefixOf (c :: rest) &&
        boundaryOk ((c :: rest).drop k.length).head?) ||
      hasWordAux k (some c) rest

/-- `containsWord s k` models the JavaScript regex test `/\bk\b/.test(s)`
for a keyword `k` made of word characters. -/
def containsWord (s k : String) : Bool :=
  hasWordAux k.data none s.data

/-- The explore-keyword alternation of `quickInferMode`'s first regex. -/
def exploreKeywords : List String :=
  ["explore", "brainstorm", "concept", "history", "aesthetic",
   "theme", "story", "creative", "innovative", "vision"]

/-- The design-review-keyword alternation of `quickInferMode`'s second
regex. -/
def reviewKeywords : List String :=
  ["review", "audit", "consistency", "refactor", "check",
   "validate", "improve", "optimize", "analyze"]

/-- `quickInferMode` from `ModeInference.ts`: lowercase the task, test
the explore regex, then the design-review regex, defaulting to `pr`. -/
def quickInferMode (task : String) : Mode :=
  let t := toLowerStr task
  if exploreKeywords.any (fun k => containsWord t k) then Mode.explore
  else if reviewKeywords.any (fun k => containsWord t k) then Mode.design_review
  else Mode.pr

/-- Spec-side predicate: the lowered task text matches some explore
keyword as a whole word. -/
def hasExploreKeyword (task : String) : Bool :=
  exploreKeywords.any (fun k => containsWord (toLowerStr task) k)

/-- Spec-side predicate: the lowered task text matches some
design-review keyword as a whole word. -/
def hasReviewKeyword (task : String) : Bool :=
  reviewKeywords.any (fun k => containsWord (toLowerStr task) k)

/-- The base round table `roundsByMode` of `ModeInference.ts` (the
variant without a MasterReviewer stage). -/
def roundsByMode : Mode → List Round
  | Mode.pr =>
      [⟨"constraints", "SpecScribe"⟩,
       ⟨"architecture_plan", "EffectArchitect"⟩,
       ⟨"tests_first", "TestEngineer"⟩,
       ⟨"impl", "CodeGen"⟩,
       ⟨"consistency_gate", "DXEnforcer"⟩,
       ⟨"pr_summary", "PRWriter"⟩]
  | Mode.design_review =>
      [⟨"design_principles", "DesignPhilosopher"⟩,
       ⟨"architecture_plan", "EffectArchitect"⟩,
       ⟨"consistency_gate", "DXEnforcer"⟩]
  | Mode.explore =>
      [⟨"concepts", "DesignPhilosopher"⟩,
       ⟨"experience_goals", "ExperienceArchitect"⟩,
       ⟨"technical_bridge", "TechnicalPoet"⟩]

/-- `planRounds` from `ModeInference.ts`: look the mode up in the base
round table. -/
def planRounds (mode : Mode) : List Round :=
  roundsByMode mode

/-! ## Output file writer (`FileService.saveOutput`) -/

/-- The character class `[a-z0-9]` kept by the sanitizer's regex (its
complement is what gets replaced). -/
def lowerAlnum (c : Char) : Bool :=
  c.isLower || c.isDigit

/-- `replace(/[^a-z0-9]+/g, "_")`: every maximal run of characters
outside `[a-z0-9]` becomes a single underscore. The boolean flag records
whether the previous character belonged to such a run. -/
def sanitizeAux : Bool → List Char → List Char
  | _, [] => []
  | inRun, c :: rest =>
      if lowerAlnum c then c :: sanitizeAux false rest
      else if inRun then sanitizeAux true rest
      else '_' :: sanitizeAux true rest

/-- The filename stem of `FileService.saveOutput`:
`taskName.toLowerCase().replace(/[^a-z0-9]+/g, "_").slice(0, 50)`. -/
def sanitizeTaskName (taskName : String) : String :=
  ⟨(sanitizeAux false (toLowerStr taskName).data).take 50⟩

/-- `toISOString().replace(/[:.]/g, "-")`, as a function of the ISO
timestamp text produced by the clock. -/
def replaceColonDot (iso : String) : String :=
  ⟨iso.data.map (fun c => if c = ':' || c = '.' then '-' else c)⟩

/-- The filename `FileService.saveOutput` builds:
sanitized stem, underscore, cleaned timestamp, `.md`. -/
def saveOutputFilename (taskName iso : String) : String :=
  sanitizeTaskName taskName ++ "_" ++ replaceColonDot iso ++ ".md"

/-- One filesystem operation performed by the output writer. -/
inductive FsOp where
  | mkdirRecursive (dir : String)
  | writeFileUtf8 (path : String) (content : String)
deriving DecidableEq, Repr

/-- The ordered filesystem effects of `FileService.saveOutput`: first
ensure `output/` exists (created recursively if absent), then write the
content as UTF-8 to the generated path (paths are shown relative to the
process working directory). -/
def saveOutputOps (taskName content iso : String) : List FsOp :=
  [FsOp.mkdirRecursive "output",
   FsOp.writeFileUtf8 ("output/" ++ saveOutputFilename taskName iso) content]

/-! ## Expert registry (`ExpertRegistry.ts`, mode-aware variant) -/

/-- JavaScript `String.prototype.toUpperCase`, modelled character by
character. -/
def toUpperStr (s : String) : String :=
  ⟨s.data.map Char.toUpper⟩

/-- Scan a character list for any (not necessarily word-delimited)
occurrence of `k`. -/
def hasSubstrAux (k : List Char) : List Char → Bool
  | [] => decide (k = [])
  | c :: rest => k.isPrefixOf (c :: rest) || hasSubstrAux k rest

/-- `containsSubstr s pat` models `s.includes(pat)` / a regex test for
the literal text `pat`. -/
def containsSubstr (s pat : String) : Bool :=
  hasSubstrAux pat.data s.data

/-- The literal mode strings of the `Mode` union type. -/
def modeName : Mode → String
  | Mode.pr => "pr"
  | Mode.design_review => "design_review"
  | Mode.explore => "explore"

/-- A static persona record (`interface Expert`). -/
structure Expert where
  name : String
  domains : List String
  prompt : String
  systemPrompt : String
deriving DecidableEq, Repr

/-- The `DesignPhilosopher` entry of the static `conceptualExperts`
catalog. -/
def designPhilosopherExpert : Expert :=
  { name := "DesignPhilosopher"
    domains := ["visual", "interaction", "system"]
    prompt := "Find deeper meaning and historical resonance in design choices"
    systemPrompt := "You are the DesignPhilosopher expert. Your role is to find deeper meaning and historical resonance in design choices. \n\n<expert_role>\nYou bring historical context and timeless design principles to modern challenges. You understand how great design transcends trends and creates lasting impact through thoughtful decision-making rooted in proven principles.\n</expert_role>\n\n<perspective_guidelines>\n- Reference historical design movements and their lasting principles\n- Identify timeless patterns that transcend current trends\n- Connect design decisions to deeper human needs and behaviors\n- Balance innovation with proven design wisdom\n- Focus on the \"why\" behind design choices, not just the \"what\"\n</perspective_guidelines>" }

/-- The `ExperienceArchitect` entry of the static catalog. -/
def experienceArchitectExpert : Expert :=
  { name := "ExperienceArchitect"
    domains := ["emotional", "workflow", "usability"]
    prompt := "Define how it should feel to use and the emotional journey"
    systemPrompt := "You are the ExperienceArchitect expert. Your role is to define how it should feel to use and design the emotional journey.\n\n<expert_role>\nYou craft meaningful user experiences by understanding the emotional journey, workflow patterns, and human psychology. You ensure that every interaction serves both functional and emotional needs.\n</expert_role>\n\n<perspective_guidelines>\n- Map the complete emotional journey from first contact to mastery\n- Identify key moments of delight, friction, and decision-making\n- Consider accessibility and inclusive design principles\n- Balance efficiency with emotional satisfaction\n- Design for both novice and expert users\n</perspective_guidelines>" }

/-- The `SystemsTheorist` entry of the static catalog. -/
def systemsTheoristExpert : Expert :=
  { name := "SystemsTheorist"
    domains := ["architecture", "data", "complexity"]
    prompt := "Identify elegant organizational principles and patterns"
    systemPrompt := "You are the SystemsTheorist expert. Your role is to identify elegant organizational principles and patterns.\n\n<expert_role>\nYou see the big picture and understand how complex systems achieve elegance through proper organization. You identify patterns that reduce complexity while maintaining power and flexibility.\n</expert_role>\n\n<perspective_guidelines>\n- Look for underlying organizational principles that scale\n- Identify patterns that reduce cognitive load\n- Balance simplicity with comprehensive functionality\n- Consider system boundaries and interfaces\n- Focus on composability and modularity\n</perspective_guidelines>" }

/-- The `TechnicalPoet` entry of the static catalog. -/
def technicalPoetExpert : Expert :=
  { name := "TechnicalPoet"
    domains := ["code", "implementation", "bridge"]
    prompt := "Bridge conceptual beauty with technical pragmatism"
    systemPrompt := "You are the TechnicalPoet expert. Your role is to bridge conceptual beauty with technical pragmatism.\n\n<expert_role>\nYou translate abstract concepts into concrete technical implementations while preserving the essence and elegance of the original vision. You ensure that technical constraints enhance rather than compromise the design philosophy.\n</expert_role>\n\n<perspective_guidelines>\n- Find technical solutions that embody the design philosophy\n- Balance ideal vision with practical constraints\n- Identify implementation approaches that feel natural and intuitive\n- Ensure technical architecture supports the intended experience\n- Translate abstract concepts into concrete development guidance\n</perspective_guidelines>" }

/-- The `ColorTheorist` entry of the static catalog. -/
def colorTheoristExpert : Expert :=
  { name := "ColorTheorist"
    domains := ["visual", "emotion", "psychology"]
    prompt := "Understand color psychology and visual harmony"
    systemPrompt := "You are the ColorTheorist expert. Your role is to understand color psychology and visual harmony.\n\n<expert_role>\nYou understand how color affects emotion, perception, and behavior. You create visual systems that support the intended experience through thoughtful color choices and visual hierarchy.\n</expert_role>\n\n<perspective_guidelines>\n- Consider cultural and psychological associations of colors\n- Create visual systems that support usability and accessibility\n- Balance aesthetic appeal with functional requirements\n- Ensure color choices reinforce the brand and emotional tone\n- Design for various viewing conditions and color blindness\n</perspective_guidelines>" }

/-- The `DataPhilosopher` entry of the static catalog. -/
def dataPhilosopherExpert : Expert :=
  { name := "DataPhilosopher"
    domains := ["data", "structure", "flow"]
    prompt := "Find meaning in data relationships and information architecture"
    systemPrompt := "You are the DataPhilosopher expert. Your role is to find meaning in data relationships and information architecture.\n\n<expert_role>\nYou understand that data structures reflect and shape thinking patterns. You design information architectures that feel intuitive and support natural mental models while maintaining technical efficiency.\n</expert_role>\n\n<perspective_guidelines>\n- Align data structures with user mental models\n- Identify relationships that create meaningful connections\n- Design for both human understanding and machine efficiency\n- Consider data lifecycle and evolution patterns\n- Balance normalization with practical usability\n</perspective_guidelines>" }

/-- The `SpecScribe` entry of the static catalog (PR-mode specialist). -/
def specScribeExpert : Expert :=
  { name := "SpecScribe"
    domains := ["requirements", "constraints", "acceptance"]
    prompt := "Restate acceptance criteria and identify files to touch"
    systemPrompt := "You are the SpecScribe expert. Your role is to clarify constraints and acceptance criteria for implementation tasks.\n\n<expert_role>\nYou translate ambiguous requirements into concrete, actionable specifications. You identify exactly what needs to be built, what files need modification, and what the success criteria are.\n</expert_role>\n\n<perspective_guidelines>\n- Break down requirements into measurable acceptance criteria\n- Identify specific files, functions, and interfaces to modify\n- Flag missing requirements and assumptions\n- Define clear success metrics\n- Scope the minimal viable implementation\n</perspective_guidelines>" }

/-- The `EffectArchitect` entry of the static catalog. -/
def effectArchitectExpert : Expert :=
  { name := "EffectArchitect"
    domains := ["effect", "architecture", "types", "layers"]
    prompt := "Design Effect layers, environments, schemas, and I/O boundaries"
    systemPrompt := "You are the EffectArchitect expert. Your role is to design clean Effect-ts architectures with proper layer separation and error handling.\n\n<expert_role>\nYou create robust, composable architectures using Effect-ts patterns. You design service layers, error types, configuration schemas, and I/O boundaries that are type-safe and testable.\n</expert_role>\n\n<perspective_guidelines>\n- Use Effect services and layers for dependency injection\n- Define proper error types and error handling strategies\n- Create schemas for validation and configuration\n- Separate pure business logic from effects\n- Design composable, testable service interfaces\n</perspective_guidelines>" }

/-- The `TestEngineer` entry of the static catalog. -/
def testEngineerExpert : Expert :=
  { name := "TestEngineer"
    domains := ["testing", "vitest", "bun", "layers"]
    prompt := "Design comprehensive test strategy with Test Layers"
    systemPrompt := "You are the TestEngineer expert. Your role is to design comprehensive testing strategies using modern tools like Vitest and Bun.\n\n<expert_role>\nYou create test architectures that validate behavior, not implementation. You design Test Layers for Effect services, integration tests, and end-to-end validation strategies.\n</expert_role>\n\n<perspective_guidelines>\n- Write tests first to drive clean interfaces\n- Create Test Layers for mocking Effect services\n- Focus on behavior testing over implementation testing\n- Design integration test strategies\n- Ensure tests are fast, reliable, and maintainable\n</perspective_guidelines>" }

/-- The `CodeGen` entry of the static catalog. -/
def codeGenExpert : Expert :=
  { name := "CodeGen"
    domains := ["implementation", "modules", "diffs"]
    prompt := "Generate minimal diffs and small, focused modules"
    systemPrompt := "You are the CodeGen expert. Your role is to generate clean, minimal code implementations.\n\n<expert_role>\nYou write code that is easy to review, focused on single responsibilities, and follows established patterns. You create minimal diffs that are safe to merge.\n</expert_role>\n\n<perspective_guidelines>\n- Generate small, focused modules with single responsibilities\n- Create minimal diffs that don\x27t touch unrelated code\n- Follow existing code patterns and conventions\n- Write self-documenting code with clear names\n- Prioritize readability and maintainability\n</perspective_guidelines>" }

/-- The `DXEnforcer` entry of the static catalog. -/
def dxEnforcerExpert : Expert :=
  { name := "DXEnforcer"
    domains := ["consistency", "naming", "dx", "standards"]
    prompt := "Enforce naming conventions, folder structure, and TypeScript rules"
    systemPrompt := "You are the DXEnforcer expert. Your role is to ensure developer experience consistency across the codebase.\n\n<expert_role>\nYou enforce coding standards, naming conventions, folder structures, and TypeScript configurations. You ensure the codebase remains consistent and navigable.\n</expert_role>\n\n<perspective_guidelines>\n- Enforce consistent naming patterns across files and functions\n- Validate folder structure follows established conventions\n- Check TypeScript configuration and type safety\n- Ensure import/export patterns are consistent\n- Maintain code organization standards\n</perspective_guidelines>" }

/-- The `PRWriter` entry of the static catalog. -/
def prWriterExpert : Expert :=
  { name := "PRWriter"
    domains := ["documentation", "prs", "migration"]
    prompt := "Write concise PR descriptions and migration notes"
    systemPrompt := "You are the PRWriter expert. Your role is to create clear, actionable PR documentation.\n\n<expert_role>\nYou write PR descriptions that help reviewers understand the change, its impact, and how to test it. You create migration notes when needed.\n</expert_role>\n\n<perspective_guidelines>\n- Write concise summaries focused on the change impact\n- Include testing instructions for reviewers\n- Document any breaking changes or migration steps\n- Highlight areas that need careful review\n- Link to relevant issues or design documents\n</perspective_guidelines>" }

/-- The static `conceptualExperts` catalog of `ExpertRegistry.ts` as a
name-indexed lookup. -/
def conceptualExperts : String → Option Expert
  | "DesignPhilosopher" => some designPhilosopherExpert
  | "ExperienceArchitect" => some experienceArchitectExpert
  | "SystemsTheorist" => some systemsTheoristExpert
  | "TechnicalPoet" => some technicalPoetExpert
  | "ColorTheorist" => some colorTheoristExpert
  | "DataPhilosopher" => some dataPhilosopherExpert
  | "SpecScribe" => some specScribeExpert
  | "EffectArchitect" => some effectArchitectExpert
  | "TestEngineer" => some testEngineerExpert
  | "CodeGen" => some codeGenExpert
  | "DXEnforcer" => some dxEnforcerExpert
  | "PRWriter" => some prWriterExpert
  | _ => none

/-- `getDesignPhilosopherMode` from `ModeInference.ts`: the
mode-dependent DesignPhilosopher instruction text ("principles mode"
for `pr` and `design_review`, "exploration mode" for `explore`). -/
def getDesignPhilosopherMode : Mode → String
  | Mode.pr | Mode.design_review =>
      "You are the DesignPhilosopher operating in \"principles mode\".\n\n<strict_constraints>\n- Do NOT reference history, movements, or philosophy\n- Output must be concise and actionable\n- Deliver 3–5 design principles tied to user needs and business goals\n- Prefer statements like \"Use semantic tokens and OKLCH with ΔL<2 across status colors\" over any narrative\n- Focus on what works, not why it\x27s historically significant\n</strict_constraints>"
  | Mode.explore =>
      "You are the DesignPhilosopher operating in \"exploration mode\".\n\n<creative_license>\n- You MAY reference historical contexts when they inspire innovation\n- Connect concepts across disciplines and time periods\n- Explore aesthetic and philosophical dimensions\n- Build narrative around design choices\n- Think expansively about possibilities and meaning\n</creative_license>"

/-- The collaboration framing appended after the lead's (possibly
mode-dependent) instruction text by
`ExpertRegistry.generateRoundPrompt`. -/
def collabFraming (leadName focus : String) (supporting : List Expert) (mode : Mode) :
    String :=
  "\n\n<collaboration_context>\nYou are participating in a multi-expert collaborative discussion. You are the LEAD expert for this round, but you must also simulate the perspectives of supporting experts to create a comprehensive synthesis.\n\nMode: " ++
  toUpperStr (modeName mode) ++
  "\nCurrent Focus: " ++ focus ++
  "\n\nSupporting experts in this discussion:\n" ++
  String.intercalate "\n"
    (supporting.map (fun e => "- " ++ e.name ++ ": " ++ e.prompt)) ++
  "\n</collaboration_context>\n\n<output_instructions>\nStructure your response with clear sections:\n1. **Lead Perspective**: Your initial expert proposal as " ++
  leadName ++
  "\n2. **Supporting Insights**: Brief critiques/refinements from each supporting expert  \n3. **Synthesis**: A cohesive final insight that weaves all perspectives together\n\n" ++
  (if mode = Mode.explore then
    "Focus on depth, creativity, and innovative possibilities. The synthesis should be inspirational and expansive."
  else
    "Focus on practical, actionable insights. The synthesis should be concrete and implementable.") ++
  "\n</output_instructions>\n\n<persistence>\n- You are an expert agent - provide a complete, thorough analysis before concluding\n- Never ask for clarification - make reasonable assumptions and document them\n- Only stop when you\x27ve delivered a comprehensive synthesis that addresses the focus area\n</persistence>"

/-- The system-instruction component of
`ExpertRegistry.generateRoundPrompt`: look the lead up in the catalog
(absence is a fatal lookup error), take the mode-dependent
DesignPhilosopher text when the lead is `"DesignPhilosopher"` and the
catalog entry's text otherwise, then append the collaboration framing.
The `userPrompt` component of the returned pair is not touched by any
claim and is not modelled. -/
def generateRoundPromptSystem (round : Round) (experts : List String) (mode : Mode) :
    Except String String :=
  match conceptualExperts round.lead with
  | none => Except.error ("Expert " ++ round.lead ++ " not found in registry")
  | some leadExpert =>
      let supportingExperts :=
        (experts.filter (fun e => e != round.lead)).filterMap conceptualExperts
      let baseSystemPrompt :=
        if round.lead = "DesignPhilosopher" then getDesignPhilosopherMode mode
        else leadExpert.systemPrompt
      Except.ok (baseSystemPrompt ++
        collabFraming leadExpert.name round.focus supportingExperts mode)

/-! ## Expert-interaction bookkeeping (`OpenAIService`) -/

/-- One logical exchange with a persona
(`interface ExpertInteraction`). -/
structure ExpertInteraction where
  expertName : String
  round : String
  callCount : Nat
  insights : List String
  responseId : Option String
deriving DecidableEq, Repr

/-- JavaScript truthiness of the optional `responseId` field:
`undefined` and the empty string are falsy. -/
def truthyId : Option String → Bool
  | none => false
  | some s => !(s == "")

/-- `trackExpertInteraction` from `OpenAIService`: find the first
record with the same `(expertName, round)` key; when it exists, add the
incoming call count, append the incoming insights, and adopt the
incoming response id when truthy; otherwise append a copy of the
incoming record. -/
def trackExpertInteraction : List ExpertInteraction → ExpertInteraction →
    List ExpertInteraction
  | [], i => [i]
  | x :: xs, i =>
      if x.expertName = i.expertName ∧ x.round = i.round then
        { x with
          callCount := x.callCount + i.callCount
          insights := x.insights ++ i.insights
          responseId := if truthyId i.responseId then i.responseId else x.responseId } :: xs
      else x :: trackExpertInteraction xs i

/-- `getExpertInteractions` from `OpenAIService`: returns a snapshot of
the in-memory list (`[...expertInteractions]`); as a pure value the
copy is the list itself. -/
def getExpertInteractions (interactions : List ExpertInteraction) :
    List ExpertInteraction :=
  interactions

/-! ## Dynamic agent factory (`DynamicAgentFactory.ts`)

The factory's SQLite table `dynamic_agents` is modelled as a list of
structured rows with the column defaults (`usage_count` 0,
`success_rate` 0.0) written out; the JSON-serialized columns hold the
structured values directly; `success_rate` (a JavaScript float) is
modelled over `ℚ` (all values the claims mention are exactly
representable). The JavaScript `Map` cache is an insertion-ordered
association list. LLM calls (`generateAgentSpec`,
`improveAgentPrompt`) are inputs: `createAgent` receives the spec the
provider would return, `evolveAgent` the improved prompt text. -/

/-- An LLM-synthesized persona (`interface DynamicAgent`). -/
structure DynamicAgent where
  id : String
  name : String
  domain : String
  expertise : List String
  prompt : String
  capabilities : List String
  createdAt : Nat
  taskContext : String
deriving DecidableEq, Repr

/-- A transient generation payload (`interface AgentSpec`). -/
structure AgentSpec where
  name : String
  domain : String
  expertise : List String
  capabilities : List String
  systemPrompt : String
deriving DecidableEq, Repr

/-- One row of the `dynamic_agents` table. -/
structure AgentRow where
  id : String
  name : String
  domain : String
  expertise : List String
  prompt : String
  capabilities : List String
  created_at : Nat
  task_context : String
  usage_count : Nat
  success_rate : ℚ
deriving DecidableEq, Repr

/-- The factory's mutable state: the in-memory `agentCache` map and the
persisted `dynamic_agents` rows in insertion order. -/
structure FactoryState where
  cache : List (String × DynamicAgent)
  rows : List AgentRow
deriving DecidableEq, Repr

/-- `Map.prototype.get`. -/
def mapGet (m : List (String × DynamicAgent)) (k : String) : Option DynamicAgent :=
  (m.find? (fun p => p.1 == k)).map (fun p => p.2)

/-- `Map.prototype.set`: overwrite the value at an existing key, else
append a new binding. -/
def mapSet (m : List (String × DynamicAgent)) (k : String) (v : DynamicAgent) :
    List (String × DynamicAgent) :=
  match m with
  | [] => [(k, v)]
  | (k', v') :: rest => if k' = k then (k, v) :: rest else (k', v') :: mapSet rest k v

/-- Lexicographic order on UTF code points, the default
`Array.prototype.sort()` comparison for strings. -/
def lexLe : List Char → List Char → Bool
  | [], _ => true
  | _ :: _, [] => false
  | c :: cs, d :: ds => if c < d then true else if d < c then false else lexLe cs ds

def insertSorted (s : String) : List String → List String
  | [] => [s]
  | x :: xs => if lexLe s.data x.data then s :: x :: xs else x :: insertSorted s xs

/-- `capabilities.sort()`, modelled as insertion sort under `lexLe`. -/
def sortStrings : List String → List String
  | [] => []
  | x :: xs => insertSorted x (sortStrings xs)

/-- The cache identity of `createAgent`:
`domain + "-" + missingCapabilities.sort().join("-")`. -/
def cacheKey (domain : String) (caps : List String) : String :=
  domain ++ "-" ++ String.intercalate "-" (sortStrings caps)

/-- `replace(/\s+/g, "_")`: each maximal whitespace run becomes one
underscore. -/
def squashWs : Bool → List Char → List Char
  | _, [] => []
  | inRun, c :: rest =>
      if c.isWhitespace then
        if inRun then squashWs true rest else '_' :: squashWs true rest
      else c :: squashWs false rest

/-- `generateAgentId`:
`name.toLowerCase().replace(/\s+/g, "_") + "_" + Date.now()`. -/
def generateAgentId (name : String) (now : Nat) : String :=
  (⟨squashWs false (toLowerStr name).data⟩ : String) ++ "_" ++ toString now

/-- `storeAgent`'s `INSERT` row: the statement names neither
`usage_count` nor `success_rate`, so the column defaults `0` and `0.0`
apply. -/
def agentToRow (a : DynamicAgent) : AgentRow :=
  { id := a.id
    name := a.name
    domain := a.domain
    expertise := a.expertise
    prompt := a.prompt
    capabilities := a.capabilities
    created_at := a.createdAt
    task_context := a.taskContext
    usage_count := 0
    success_rate := 0 }

/-- The per-row effect of `incrementUsage`'s `UPDATE`. -/
def bumpUsage (agentId : String) (r : AgentRow) : AgentRow :=
  if r.id = agentId then { r with usage_count := r.usage_count + 1 } else r

/-- `incrementUsage`: `UPDATE dynamic_agents SET usage_count =
usage_count + 1 WHERE id = ?`. -/
def incrementUsage (rows : List AgentRow) (agentId : String) : List AgentRow :=
  rows.map (bumpUsage agentId)

/-- `SELECT ... WHERE id = ?` via `.get`: the first matching row. -/
def getRow (rows : List AgentRow) (agentId : String) : Option AgentRow :=
  rows.find? (fun r => r.id == agentId)

/-- The per-row effect of `updateSuccessRate`'s `UPDATE`. -/
def applyRate (agentId : String) (newRate : ℚ) (r : AgentRow) : AgentRow :=
  if r.id = agentId then
    { r with success_rate := newRate, usage_count := r.usage_count + 1 }
  else r

/-- `updateSuccessRate`: read the row's statistics; when present, set
`success_rate` to the running weighted mean and increment
`usage_count`; when absent, do nothing. -/
def updateSuccessRate (rows : List AgentRow) (agentId : String) (success : Bool) :
    List AgentRow :=
  match getRow rows agentId with
  | none => rows
  | some stats =>
      let totalSuccesses := stats.success_rate * (stats.usage_count : ℚ)
      let newRate := (totalSuccesses + (if success then 1 else 0)) /
        ((stats.usage_count : ℚ) + 1)
      rows.map (applyRate agentId newRate)

/-- `createAgent`, with the LLM-produced agent spec supplied as an
input (`spec`) and the clock reading as `now`: a cache hit on
`cacheKey` increments the cached agent's persisted usage count and
returns it; a miss builds the agent from the spec, inserts one row, and
caches it under both the specificity key and its own id. -/
def createAgent (st : FactoryState) (taskContext domain : String)
    (missingCapabilities : List String) (spec : AgentSpec) (now : Nat) :
    DynamicAgent × FactoryState :=
  match mapGet st.cache (cacheKey domain missingCapabilities) with
  | some cached => (cached, ⟨st.cache, incrementUsage st.rows cached.id⟩)
  | none =>
      let agent : DynamicAgent :=
        ⟨generateAgentId spec.name now, spec.name, spec.domain, spec.expertise,
         spec.systemPrompt, spec.capabilities, now, taskContext⟩
      (agent,
       ⟨mapSet (mapSet st.cache (cacheKey domain missingCapabilities) agent)
          agent.id agent,
        st.rows ++ [agentToRow agent]⟩)

/-- `evolveAgent`, with the LLM-improved prompt supplied as an input
(`improvedPrompt`): an unknown id is a fatal lookup error; otherwise
the persisted success rate and usage count are always updated, and a
non-empty improvements list additionally persists and caches an evolved
copy with id `<originalId>-v<now>`, the improved prompt, and a fresh
creation time. -/
def evolveAgent (st : FactoryState) (agentId : String) (success : Bool)
    (improvements : List String) (improvedPrompt : String) (now : Nat) :
    Except String (DynamicAgent × FactoryState) :=
  match mapGet st.cache agentId with
  | none => Except.error ("Agent " ++ agentId ++ " not found")
  | some agent =>
      let rows1 := updateSuccessRate st.rows agentId success
      if improvements.isEmpty then Except.ok (agent, ⟨st.cache, rows1⟩)
      else
        let evolved : DynamicAgent :=
          { agent with
            id := agent.id ++ "-v" ++ toString now
            prompt := improvedPrompt
            createdAt := now }
        Except.ok (evolved,
          ⟨mapSet st.cache evolved.id evolved, rows1 ++ [agentToRow evolved]⟩)

/-! ## Memory store (`MemoryService`)

The `memories` table is modelled as a list of structured rows; the
JSON text columns hold the structured values directly. A `Philosophy`
value is the runtime JavaScript object: an association list from the
property keys actually assigned (the orchestrator writes the
snake_case round-focus keys through an unchecked `keyof` cast) to
synthesized text. -/

/-- The runtime shape of a `Philosophy` object: property key →
synthesized text. -/
abbrev Philosophy := List (String × String)

/-- JavaScript property read `obj[key]` on a `Philosophy`-like
object. -/
def propGet (obj : List (String × String)) (key : String) : Option String :=
  (obj.find? (fun p => p.1 == key)).map (fun p => p.2)

/-- JavaScript property write `obj[key] = v`: overwrite an existing
key, else add it. -/
def propSet (obj : List (String × String)) (key v : String) :
    List (String × String) :=
  match obj with
  | [] => [(key, v)]
  | (k, w) :: rest => if k = key then (key, v) :: rest else (k, w) :: propSet rest key v

/-- `interface TechnicalSpec` of `CreativeAILoop.ts`. -/
structure TechnicalSpec where
  name : String
  description : String
  implementation : String
  setupCommands : List String
  criticalNotes : List String
deriving DecidableEq, Repr

/-- One row of the `memories` table. -/
structure MemRow where
  id : Nat
  task : String
  philosophy : Philosophy
  spec : TechnicalSpec
  timestamp : Nat
deriving DecidableEq, Repr

/-- One session-memory entry (`interface MemoryEntry`). -/
structure MemoryEntry where
  task : String
  philosophy : Philosophy
  spec : TechnicalSpec
  timestamp : Nat
deriving DecidableEq, Repr

/-- The memory store's state: the in-memory session list and the
persistent `memories` table in insertion order. -/
structure MemState where
  session : List MemoryEntry
  table : List MemRow
deriving DecidableEq, Repr

/-- JavaScript `split(" ")`: split at every single space, keeping empty
segments. -/
def splitSpaceAux : List Char → List Char → List String
  | [], acc => [(⟨acc.reverse⟩ : String)]
  | c :: rest, acc =>
      if c = ' ' then (⟨acc.reverse⟩ : String) :: splitSpaceAux rest []
      else splitSpaceAux rest (c :: acc)

def splitSpace (s : String) : List String :=
  splitSpaceAux s.data []

/-- The keyword list of `findRelevantSuccesses`:
`task.toLowerCase().split(" ").filter(w => w.length > 3)`. -/
def memKeywords (task : String) : List String :=
  (splitSpace (toLowerStr task)).filter (fun w => decide (w.length > 3))

/-- `LOWER(task) LIKE '%keyword%'`, modelled as case-insensitive
substring containment (the keywords the code builds are already
lower-case; `LIKE` wildcard characters inside a keyword are not
modelled). -/
def likeMatch (haystack keyword : String) : Bool :=
  containsSubstr (toLowerStr haystack) keyword

def insertByTimestampDesc (r : MemRow) : List MemRow → List MemRow
  | [] => [r]
  | x :: xs =>
      if x.timestamp < r.timestamp then r :: x :: xs
      else x :: insertByTimestampDesc r xs

/-- `ORDER BY timestamp DESC`, modelled as insertion sort. -/
def sortByTimestampDesc : List MemRow → List MemRow
  | [] => []
  | x :: xs => insertByTimestampDesc x (sortByTimestampDesc xs)

/-- `findRelevantSuccesses` over the persistent table. The SQL boundary
is modelled from the statement the code assembles: with an empty
keyword list the `WHERE` clause is an empty disjunction
(`SELECT ... WHERE  ORDER BY ...`), a malformed statement the engine
rejects, so the wrapped query error is returned; otherwise rows whose
task matches any keyword are ordered by recency, limited to 3, and
formatted as `<task>: <historicalGrounding or empty>`. -/
def findRelevantSuccesses (task : String) (table : List MemRow) :
    Except String (List String) :=
  let keywords := memKeywords task
  if keywords.isEmpty then
    Except.error "Failed to query memories: SQLITE_ERROR: syntax error in generated query"
  else
    let matching := table.filter (fun r => keywords.any (fun k => likeMatch r.task k))
    let ordered := sortByTimestampDesc matching
    Except.ok ((ordered.take 3).map
      (fun r => r.task ++ ": " ++ ((propGet r.philosophy "historicalGrounding").getD "")))

/-- `storeSuccess`: push onto the session list, then attempt the
`INSERT` (whose outcome is the `insertRes` input); an insert failure is
wrapped, after the session push has already happened. -/
def storeSuccess (mem : MemState) (task : String) (philosophy : Philosophy)
    (spec : TechnicalSpec) (now : Nat) (insertRes : Except String Unit) :
    Except String Unit × MemState :=
  let mem1 : MemState := ⟨mem.session ++ [⟨task, philosophy, spec, now⟩], mem.table⟩
  match insertRes with
  | Except.error e => (Except.error ("Failed to store memory: " ++ e), mem1)
  | Except.ok _ =>
      (Except.ok (),
       ⟨mem1.session, mem1.table ++ [⟨mem1.table.length, task, philosophy, spec, now⟩]⟩)

/-! ## Orchestrator (`CreativeAILoop.run`)

The run is modelled as a state transformer over the memory store and
the expert-interaction list. Each external call — the interactive
questions, the three conceptual LLM rounds, the two user-feedback
checkpoints, the technical and formatting LLM calls, the file save, and
the memory `INSERT` — is an `Except`-valued input; the synthesis
extractor (a pure text function orthogonal to the claims) is a function
parameter. Console logging is omitted. -/

/-- A normalized provider reply (`{content, responseId?}`). -/
structure Response where
  content : String
  responseId : Option String
deriving DecidableEq, Repr

/-- The classified answers of `askQuestions`. -/
structure QuestionAnswers where
  constraints : List (String × String)
  preferences : List (String × String)
deriving DecidableEq, Repr

/-- `interface TaskContext`. -/
structure TaskContext where
  task : String
  outputType : String
  constraints : List (String × String)
  preferences : List (String × String)
  inspirationSeeds : List String
deriving DecidableEq, Repr

/-- `interface LoopResult`. -/
structure LoopResult where
  outputPath : String
  philosophy : Philosophy
  spec : TechnicalSpec
  expertInteractions : List ExpertInteraction
deriving DecidableEq, Repr

/-- Case-insensitive test of a regex alternation of literal words
(without word boundaries), as used by `inferOutputType`. -/
def matchesAnyCI (task : String) (pats : List String) : Bool :=
  pats.any (fun p => containsSubstr (toLowerStr task) p)

/-- `inferOutputType` from `CreativeAILoop.ts` (its `responses`
parameter is unused in the source and dropped here). -/
def inferOutputType (task : String) : String :=
  if matchesAnyCI task ["react", "component", "ui", "frontend"] then "react_app"
  else if matchesAnyCI task ["cli", "command", "terminal", "script"] then "cli_tool"
  else if matchesAnyCI task ["api", "backend", "server", "service"] then "api_service"
  else if matchesAnyCI task ["config", "settings", "json", "yaml"] then "configuration"
  else "general"

/-- `ExpertRegistry.selectTechnicalExperts` (its unused `preferences`
parameter is dropped): the fixed group table with the `general` group
as fallback. -/
def selectTechnicalExperts (outputType : String) : List String :=
  match outputType with
  | "react_app" => ["ReactArchitect", "ComponentDesigner", "StateManager"]
  | "cli_tool" => ["CommandGrammar", "UnixPhilosopher", "ErrorHandler"]
  | "api_service" => ["APIDesigner", "DataModeler", "SecurityExpert"]
  | "configuration" => ["SchemaDesigner", "DataModeler"]
  | _ => ["SystemArchitect", "CodeCraftsman"]

/-- The outcomes of the run's external calls, in program order. -/
structure RunInputs where
  askQuestionsRes : Except String QuestionAnswers
  round1Res : Except String Response
  round2Res : Except String Response
  feedback2Res : Except String (Option String)
  round3Res : Except String Response
  feedback3Res : Except String (Option String)
  techRes : Except String Response
  formatRes : Except String Response
  saveRes : Except String String
  insertRes : Except String Unit
  now : Nat
deriving Repr

/-- The orchestrator-visible mutable state: the memory store and the
provider client's interaction list. -/
structure OrchState where
  mem : MemState
  interactions : List ExpertInteraction
deriving DecidableEq, Repr

def isErr {ε α : Type} : Except ε α → Bool
  | Except.error _ => true
  | Except.ok _ => false

/-- JavaScript truthiness of a user-feedback value: `undefined` and the
empty string both mean "keep as is". -/
def truthyFeedback : Option String → Option String
  | none => none
  | some f => if f == "" then none else some f

/-- `CreativeAILoop.run`: Phase 0 (questions, memory query, output-type
inference, context assembly), Phase 1 (the three fixed conceptual
rounds — `historical_grounding`/DesignPhilosopher,
`emotional_resonance`/ExperienceArchitect,
`technical_bridge`/TechnicalPoet — with interaction tracking and the
two user checkpoints after the last two rounds), Phase 2 (technical
spec), Phase 3 (formatting and file save), then interaction snapshot,
`storeSuccess`, and the result. A failure anywhere aborts with the
state as it stood. -/
def runLoop (extractSyn : String → String) (st : OrchState)
    (initialPrompt : String) (inp : RunInputs) :
    Except String LoopResult × OrchState :=
  match inp.askQuestionsRes with
  | Except.error e => (Except.error e, st)
  | Except.ok answers =>
  match findRelevantSuccesses initialPrompt st.mem.table with
  | Except.error e => (Except.error e, st)
  | Except.ok seeds =>
  let ctx : TaskContext :=
    ⟨initialPrompt, inferOutputType initialPrompt, answers.constraints,
     answers.preferences, seeds⟩
  match inp.round1Res with
  | Except.error e => (Except.error e, st)
  | Except.ok r1 =>
  let syn1 := extractSyn r1.content
  let st1 : OrchState :=
    ⟨st.mem, trackExpertInteraction st.interactions
      ⟨"DesignPhilosopher", "historical_grounding", 1, [syn1], r1.responseId⟩⟩
  let phil1 : Philosophy := propSet [] "historical_grounding" syn1
  match inp.round2Res with
  | Except.error e => (Except.error e, st1)
  | Except.ok r2 =>
  let syn2 := extractSyn r2.content
  let st2 : OrchState :=
    ⟨st1.mem, trackExpertInteraction st1.interactions
      ⟨"ExperienceArchitect", "emotional_resonance", 1, [syn2], r2.responseId⟩⟩
  let phil2 := propSet phil1 "emotional_resonance" syn2
  match inp.feedback2Res with
  | Except.error e => (Except.error e, st2)
  | Except.ok fb2raw =>
  let stepB : Philosophy × List ExpertInteraction :=
    match truthyFeedback fb2raw with
    | some f =>
        (propSet phil2 "emotional_resonance" f,
         trackExpertInteraction st2.interactions
           ⟨"User", "emotional_resonance", 1, [f], none⟩)
    | none => (phil2, st2.interactions)
  match inp.round3Res with
  | Except.error e => (Except.error e, ⟨st2.mem, stepB.2⟩)
  | Except.ok r3 =>
  let syn3 := extractSyn r3.content
  let st3 : OrchState :=
    ⟨st2.mem, trackExpertInteraction stepB.2
      ⟨"TechnicalPoet", "technical_bridge", 1, [syn3], r3.responseId⟩⟩
  let phil3 := propSet stepB.1 "technical_bridge" syn3
  match inp.feedback3Res with
  | Except.error e => (Except.error e, st3)
  | Except.ok fb3raw =>
  let stepC : Philosophy × List ExpertInteraction :=
    match truthyFeedback fb3raw with
    | some f =>
        (propSet phil3 "technical_bridge" f,
         trackExpertInteraction st3.interactions
           ⟨"User", "technical_bridge", 1, [f], none⟩)
    | none => (phil3, st3.interactions)
  let technicalExperts := selectTechnicalExperts ctx.outputType
  match inp.techRes with
  | Except.error e => (Except.error e, ⟨st3.mem, stepC.2⟩)
  | Except.ok tr =>
  let st4 : OrchState :=
    ⟨st3.mem, trackExpertInteraction stepC.2
      ⟨String.intercalate "+" technicalExperts, "technical_specification", 1,
       [tr.content], none⟩⟩
  let spec : TechnicalSpec :=
    ⟨String.intercalate "_" ((splitSpace ctx.task).take 3), ctx.task,
     tr.content, [], []⟩
  match inp.formatRes with
  | Except.error e => (Except.error e, st4)
  | Except.ok _fr =>
  let st5 : OrchState :=
    ⟨st4.mem, trackExpertInteraction st4.interactions
      ⟨"OutputGenerator", "claude_code_instructions", 1,
       ["Generated final implementation guide"], none⟩⟩
  match inp.saveRes with
  | Except.error e => (Except.error e, st5)
  | Except.ok outputPath =>
  let expertInteractions := getExpertInteractions st5.interactions
  let stored := storeSuccess st5.mem ctx.task stepC.1 spec inp.now inp.insertRes
  match stored.1 with
  | Except.error e => (Except.error e, ⟨stored.2, st5.interactions⟩)
  | Except.ok _ =>
      (Except.ok ⟨outputPath, stepC.1, spec, expertInteractions⟩,
       ⟨stored.2, st5.interactions⟩)

/-- A failure in Phases 0–3 of the run: one of the interactive,
LLM, memory-query, or file-save calls failed (the post-phase memory
`INSERT` is deliberately not included). -/
def anyPhaseFailure (inp : RunInputs) (table : List MemRow) (task : String) :
    Bool :=
  isErr inp.askQuestionsRes || isErr (findRelevantSuccesses task table) ||
  isErr inp.round1Res || isErr inp.round2Res || isErr inp.feedback2Res ||
  isErr inp.round3Res || isErr inp.feedback3Res || isErr inp.techRes ||
  isErr inp.formatRes || isErr inp.saveRes

/-! ## Concrete fixtures used by witness instantiations -/

def sampleSpec : TechnicalSpec := ⟨"n", "d", "impl", [], []⟩

/-- A memory state holding one prior successful run. -/
def sampleMem : MemState :=
  ⟨[⟨"old task", [("historical_grounding", "old")], sampleSpec, 0⟩],
   [⟨0, "old task", [("historical_grounding", "old")], sampleSpec, 0⟩]⟩

/-- External-call outcomes for a run whose second conceptual round's
provider call fails. -/
def sampleFailingInputs : RunInputs :=
  ⟨Except.ok ⟨[], []⟩, Except.ok ⟨"c1", none⟩, Except.error "provider down",
   Except.ok none, Except.ok ⟨"c3", none⟩, Except.ok none,
   Except.ok ⟨"t", none⟩, Except.ok ⟨"f", none⟩, Except.ok "output/x.md",
   Except.ok (), 9⟩

end CreativePrompt

namespace CreativePrompt

/-- C1 (counterexample): the task `"explore review"` contains both an
explore keyword and a design-review keyword, so by the claim's case
split neither of its first two branches applies and the classifier
should return `pr`; the code returns `explore`. -/
theorem quickInferMode_both_keyword_classes_gives_explore :
    hasExploreKeyword "explore review" = true ∧
    hasReviewKeyword "explore review" = true ∧
    quickInferMode "explore review" = Mode.explore ∧
    Mode.explore ≠ Mode.pr := by
  refine ⟨by decide, by decide, by decide, by decide⟩

/-- C1 (amended): whole-word explore keywords take precedence: any task
matching an explore keyword classifies as `explore` (even if
design-review keywords are also present); a task with no explore
keyword but a design-review keyword classifies as `design_review`;
otherwise the classifier returns `pr`. -/
theorem quickInferMode_keyword_rule (task : String) :
    (hasExploreKeyword task = true → quickInferMode task = Mode.explore) ∧
    (hasExploreKeyword task = false → hasReviewKeyword task = true →
      quickInferMode task = Mode.design_review) ∧
    (hasExploreKeyword task = false → hasReviewKeyword task = false →
      quickInferMode task = Mode.pr) := by
  have he : quickInferMode task =
      (if hasExploreKeyword task then Mode.explore
       else if hasReviewKeyword task then Mode.design_review
       else Mode.pr) := rfl
  refine ⟨fun h1 => ?_, fun h1 h2 => ?_, fun h1 h2 => ?_⟩ <;>
    simp [he, h1] <;> exact h2

/-- C1 (witness for the amended theorem): concrete evaluation at the
task `"explore data pipelines"`. -/
theorem quickInferMode_keyword_rule_witness :
    quickInferMode "explore data pipelines" = Mode.explore :=
  (quickInferMode_keyword_rule "explore data pipelines").1 (by decide)

/-- C2: on the base round table, `planRounds "pr"` is exactly the six
rounds constraints/SpecScribe, architecture_plan/EffectArchitect,
tests_first/TestEngineer, impl/CodeGen, consistency_gate/DXEnforcer,
pr_summary/PRWriter in that order, and `planRounds "explore"` is
exactly concepts/DesignPhilosopher,
experience_goals/ExperienceArchitect, technical_bridge/TechnicalPoet in
that order. -/
theorem planRounds_pr_and_explore :
    planRounds Mode.pr =
      [⟨"constraints", "SpecScribe"⟩,
       ⟨"architecture_plan", "EffectArchitect"⟩,
       ⟨"tests_first", "TestEngineer"⟩,
       ⟨"impl", "CodeGen"⟩,
       ⟨"consistency_gate", "DXEnforcer"⟩,
       ⟨"pr_summary", "PRWriter"⟩] ∧
    planRounds Mode.explore =
      [⟨"concepts", "DesignPhilosopher"⟩,
       ⟨"experience_goals", "ExperienceArchitect"⟩,
       ⟨"technical_bridge", "TechnicalPoet"⟩] :=
  ⟨rfl, rfl⟩

theorem replaceColonDot_clean (iso : String) :
    ∀ c ∈ (replaceColonDot iso).data, c ≠ ':' ∧ c ≠ '.' := by
  intro c hc
  simp only [replaceColonDot, List.mem_map] at hc
  obtain ⟨a, _, rfl⟩ := hc
  by_cases h1 : a = ':' <;> by_cases h2 : a = '.' <;> simp [h1, h2]

/-- C5: saving output for the task name `"Build a CLI tool!!"` yields a
filename of the form `build_a_cli_tool_<ts>.md` where `<ts>` contains no
colon and no dot; the sanitized stem is the lower-cased task name with
each run of non-alphanumeric characters collapsed to one underscore
(truncated to 50 characters); and the content write is issued only after
the recursive creation of the `output/` directory. -/
theorem saveOutput_build_a_cli_tool (iso content : String) :
    ∃ ts : String,
      saveOutputFilename "Build a CLI tool!!" iso =
        "build_a_cli_tool_" ++ ts ++ ".md" ∧
      (∀ c ∈ ts.data, c ≠ ':' ∧ c ≠ '.') ∧
      sanitizeTaskName "Build a CLI tool!!" = "build_a_cli_tool_" ∧
      saveOutputOps "Build a CLI tool!!" content iso =
        [FsOp.mkdirRecursive "output",
         FsOp.writeFileUtf8
           ("output/" ++ ("build_a_cli_tool_" ++ ts ++ ".md")) content] := by
  have hsan : sanitizeTaskName "Build a CLI tool!!" = "build_a_cli_tool_" := by
    decide
  have hname : saveOutputFilename "Build a CLI tool!!" iso =
      "build_a_cli_tool_" ++ ("_" ++ replaceColonDot iso) ++ ".md" := by
    unfold saveOutputFilename
    rw [hsan, String.append_assoc "build_a_cli_tool_" "_" (replaceColonDot iso)]
  refine ⟨"_" ++ replaceColonDot iso, hname, ?_, hsan, ?_⟩
  · intro c hc
    rw [String.data_append] at hc
    rcases List.mem_append.mp hc with h | h
    · simp only [List.mem_singleton] at h
      subst h
      exact ⟨by decide, by decide⟩
    · exact replaceColonDot_clean iso c h
  · simp only [saveOutputOps, hname]

/-- C6: the DesignPhilosopher instruction text for `pr` and
`design_review` contains the prohibition "Do NOT reference history"
while the `explore` text does not, and the `explore` text contains the
permission "MAY reference historical" while the other two do not (so
each presence check is satisfied by exactly one text body); the
mode-dependent text differs from the static catalog entry; and
`generateRoundPrompt` with lead DesignPhilosopher builds its system
instructions from the mode-dependent text. -/
theorem designPhilosopher_mode_switch :
    containsSubstr (getDesignPhilosopherMode Mode.pr) "Do NOT reference history" = true ∧
    containsSubstr (getDesignPhilosopherMode Mode.design_review) "Do NOT reference history" = true ∧
    containsSubstr (getDesignPhilosopherMode Mode.explore) "Do NOT reference history" = false ∧
    containsSubstr (getDesignPhilosopherMode Mode.explore) "MAY reference historical" = true ∧
    containsSubstr (getDesignPhilosopherMode Mode.pr) "MAY reference historical" = false ∧
    containsSubstr (getDesignPhilosopherMode Mode.design_review) "MAY reference historical" = false ∧
    (∀ mode, getDesignPhilosopherMode mode ≠ designPhilosopherExpert.systemPrompt) ∧
    (∀ (focus : String) (experts : List String) (mode : Mode), ∃ rest : String,
      generateRoundPromptSystem ⟨focus, "DesignPhilosopher"⟩ experts mode =
        Except.ok (getDesignPhilosopherMode mode ++ rest)) := by
  refine ⟨by decide, by decide, by decide, by decide, by decide, by decide, ?_, ?_⟩
  · intro mode
    cases mode <;> decide
  · intro focus experts mode
    exact ⟨collabFraming designPhilosopherExpert.name focus
      ((experts.filter (fun e => e != "DesignPhilosopher")).filterMap conceptualExperts)
      mode, rfl⟩

theorem trackExpertInteraction_first_match (i x : ExpertInteraction)
    (post : List ExpertInteraction)
    (hname : x.expertName = i.expertName) (hround : x.round = i.round) :
    ∀ pre : List ExpertInteraction,
      (∀ y ∈ pre, ¬(y.expertName = i.expertName ∧ y.round = i.round)) →
      trackExpertInteraction (pre ++ x :: post) i =
        pre ++
          { x with
            callCount := x.callCount + i.callCount
            insights := x.insights ++ i.insights
            responseId := if truthyId i.responseId then i.responseId
              else x.responseId } :: post := by
  intro pre
  induction pre with
  | nil =>
      intro _
      simp only [List.nil_append, trackExpertInteraction]
      rw [if_pos ⟨hname, hround⟩]
  | cons y ys ih =>
      intro hpre
      have hy : ¬(y.expertName = i.expertName ∧ y.round = i.round) :=
        hpre y (by simp)
      simp only [List.cons_append, trackExpertInteraction]
      rw [if_neg hy]
      exact congrArg (y :: ·) (ih fun z hz => hpre z (by simp [hz]))

theorem trackExpertInteraction_no_match (i : ExpertInteraction) :
    ∀ st : List ExpertInteraction,
      (∀ y ∈ st, ¬(y.expertName = i.expertName ∧ y.round = i.round)) →
      trackExpertInteraction st i = st ++ [i] := by
  intro st
  induction st with
  | nil => intro _; rfl
  | cons y ys ih =>
      intro hst
      have hy : ¬(y.expertName = i.expertName ∧ y.round = i.round) :=
        hst y (by simp)
      simp only [trackExpertInteraction]
      rw [if_neg hy]
      exact congrArg (y :: ·) (ih fun z hz => hst z (by simp [hz]))

/-- C7: recording an interaction whose `(expertName, round)` key already
occurs in the list updates the first matching record in place — adding
the incoming call count, appending the incoming insight texts, adopting
the incoming response id when present — instead of adding a second
record; a fresh key is appended at the end; and `getExpertInteractions`
returns a snapshot equal to the tracked list. -/
theorem trackExpertInteraction_upsert (st : List ExpertInteraction)
    (i : ExpertInteraction) :
    (∀ (pre : List ExpertInteraction) (x : ExpertInteraction)
        (post : List ExpertInteraction),
      st = pre ++ x :: post →
      (∀ y ∈ pre, ¬(y.expertName = i.expertName ∧ y.round = i.round)) →
      x.expertName = i.expertName → x.round = i.round →
      trackExpertInteraction st i =
        pre ++
          { x with
            callCount := x.callCount + i.callCount
            insights := x.insights ++ i.insights
            responseId := if truthyId i.responseId then i.responseId
              else x.responseId } :: post) ∧
    ((∀ y ∈ st, ¬(y.expertName = i.expertName ∧ y.round = i.round)) →
      trackExpertInteraction st i = st ++ [i]) ∧
    getExpertInteractions (trackExpertInteraction st i) =
      trackExpertInteraction st i := by
  refine ⟨?_, trackExpertInteraction_no_match i st, rfl⟩
  intro pre x post hst hpre hname hround
  subst hst
  exact trackExpertInteraction_first_match i x post hname hround pre hpre

/-- C7 (witness): tracking a second interaction for the key
`(DesignPhilosopher, concepts)` merges into the one existing record. -/
theorem trackExpertInteraction_upsert_witness :
    trackExpertInteraction
        [⟨"DesignPhilosopher", "concepts", 1, ["first insight"], none⟩]
        ⟨"DesignPhilosopher", "concepts", 1, ["second insight"], some "resp-2"⟩ =
      [⟨"DesignPhilosopher", "concepts", 2, ["first insight", "second insight"],
        some "resp-2"⟩] :=
  ((trackExpertInteraction_upsert
      [⟨"DesignPhilosopher", "concepts", 1, ["first insight"], none⟩]
      ⟨"DesignPhilosopher", "concepts", 1, ["second insight"], some "resp-2"⟩).1
    [] _ [] rfl (by simp) rfl rfl).trans (by decide)

theorem mapGet_cons_self (k : String) (v : DynamicAgent)
    (rest : List (String × DynamicAgent)) :
    mapGet ((k, v) :: rest) k = some v := by
  unfold mapGet
  rw [List.find?_cons_of_pos _ (by simp)]
  rfl

theorem mapGet_cons_ne (k'' k' : String) (v'' : DynamicAgent)
    (rest : List (String × DynamicAgent)) (h : k'' ≠ k') :
    mapGet ((k'', v'') :: rest) k' = mapGet rest k' := by
  unfold mapGet
  rw [List.find?_cons_of_neg _ (by simp [h])]

theorem mapGet_mapSet_self (m : List (String × DynamicAgent)) (k : String)
    (v : DynamicAgent) : mapGet (mapSet m k v) k = some v := by
  induction m with
  | nil => exact mapGet_cons_self k v []
  | cons p rest ih =>
      obtain ⟨k', v'⟩ := p
      by_cases h : k' = k
      · subst h
        have hset : mapSet ((k', v') :: rest) k' v = (k', v) :: rest := by
          simp [mapSet]
        rw [hset]
        exact mapGet_cons_self k' v rest
      · simp only [mapSet, if_neg h]
        rw [mapGet_cons_ne _ _ _ _ h]
        exact ih

theorem mapGet_mapSet_other (m : List (String × DynamicAgent)) (k k' : String)
    (v : DynamicAgent) (h : k' ≠ k) :
    mapGet (mapSet m k v) k' = mapGet m k' := by
  induction m with
  | nil =>
      show mapGet [(k, v)] k' = mapGet [] k'
      rw [mapGet_cons_ne _ _ _ _ (Ne.symm h)]
  | cons p rest ih =>
      obtain ⟨k'', v''⟩ := p
      by_cases hk : k'' = k
      · subst hk
        have hset : mapSet ((k'', v'') :: rest) k'' v = (k'', v) :: rest := by
          simp [mapSet]
        rw [hset, mapGet_cons_ne _ _ _ _ (Ne.symm h),
          mapGet_cons_ne _ _ _ _ (Ne.symm h)]
      · simp only [mapSet, if_neg hk]
        by_cases hq : k'' = k'
        · subst hq
          rw [mapGet_cons_self, mapGet_cons_self]
        · rw [mapGet_cons_ne _ _ _ _ hq, mapGet_cons_ne _ _ _ _ hq]
          exact ih

theorem filter_map_comm {α : Type} (f : α → α) (p : α → Bool)
    (hp : ∀ a, p (f a) = p a) :
    ∀ l : List α, (l.map f).filter p = (l.filter p).map f := by
  intro l
  induction l with
  | nil => rfl
  | cons a l ih =>
      by_cases h : p a
      · simp [List.filter_cons, hp a, h, ih]
      · simp [List.filter_cons, hp a, h, ih]

theorem find?_map_comm {α : Type} (f : α → α) (p : α → Bool)
    (hp : ∀ a, p (f a) = p a) :
    ∀ l : List α, (l.map f).find? p = (l.find? p).map f := by
  intro l
  induction l with
  | nil => rfl
  | cons a l ih =>
      by_cases h : p a
      · rw [List.map_cons, List.find?_cons_of_pos _ (by rw [hp a]; exact h),
          List.find?_cons_of_pos _ h]
        rfl
      · rw [List.map_cons, List.find?_cons_of_neg _ (by rw [hp a]; exact h),
          List.find?_cons_of_neg _ h, ih]

theorem bumpUsage_id (agentId : String) (r : AgentRow) :
    (bumpUsage agentId r).id = r.id := by
  unfold bumpUsage
  split <;> rfl

/-- C3: a repeated `createAgent` request for the same
`(domain, missingCapabilities)` identity returns an agent with the same
id both times, leaves exactly one persisted row for that identity, and
increments that row's usage count on the second call only (the first
call inserts it with the column default 0). -/
theorem createAgent_cached_identity
    (st : FactoryState) (tc domain : String) (caps : List String)
    (spec1 spec2 : AgentSpec) (t1 t2 : Nat)
    (a1 a2 : DynamicAgent) (st1 st2 : FactoryState)
    (hmiss : mapGet st.cache (cacheKey domain caps) = none)
    (hfresh : ∀ r ∈ st.rows, r.id ≠ generateAgentId spec1.name t1)
    (h1 : createAgent st tc domain caps spec1 t1 = (a1, st1))
    (h2 : createAgent st1 tc domain caps spec2 t2 = (a2, st2)) :
    a2.id = a1.id ∧
    (st1.rows.filter (fun r => r.id == a1.id)).map (fun r => r.usage_count) = [0] ∧
    (st2.rows.filter (fun r => r.id == a1.id)).map (fun r => r.usage_count) = [1] := by
  have h1' : createAgent st tc domain caps spec1 t1 =
      (⟨generateAgentId spec1.name t1, spec1.name, spec1.domain, spec1.expertise,
        spec1.systemPrompt, spec1.capabilities, t1, tc⟩,
       ⟨mapSet (mapSet st.cache (cacheKey domain caps)
            ⟨generateAgentId spec1.name t1, spec1.name, spec1.domain,
             spec1.expertise, spec1.systemPrompt, spec1.capabilities, t1, tc⟩)
          (generateAgentId spec1.name t1)
          ⟨generateAgentId spec1.name t1, spec1.name, spec1.domain,
           spec1.expertise, spec1.systemPrompt, spec1.capabilities, t1, tc⟩,
        st.rows ++
          [agentToRow
            ⟨generateAgentId spec1.name t1, spec1.name, spec1.domain,
             spec1.expertise, spec1.systemPrompt, spec1.capabilities, t1, tc⟩]⟩) := by
    unfold createAgent
    rw [hmiss]
  rw [h1'] at h1
  injection h1 with ha1 hs1
  subst ha1
  subst hs1
  set A : DynamicAgent :=
    ⟨generateAgentId spec1.name t1, spec1.name, spec1.domain, spec1.expertise,
     spec1.systemPrompt, spec1.capabilities, t1, tc⟩ with hA
  have hhit : mapGet (mapSet (mapSet st.cache (cacheKey domain caps) A) A.id A)
      (cacheKey domain caps) = some A := by
    by_cases hid : A.id = cacheKey domain caps
    · rw [hid, mapGet_mapSet_self]
    · rw [mapGet_mapSet_other _ _ _ _ (Ne.symm hid), mapGet_mapSet_self]
  have h2' : createAgent
      (⟨mapSet (mapSet st.cache (cacheKey domain caps) A) A.id A,
        st.rows ++ [agentToRow A]⟩ : FactoryState) tc domain caps spec2 t2 =
      (A, ⟨mapSet (mapSet st.cache (cacheKey domain caps) A) A.id A,
           incrementUsage (st.rows ++ [agentToRow A]) A.id⟩) := by
    unfold createAgent
    rw [show mapGet
        (FactoryState.cache
          ⟨mapSet (mapSet st.cache (cacheKey domain caps) A) A.id A,
           st.rows ++ [agentToRow A]⟩) (cacheKey domain caps) = some A from hhit]
  rw [h2'] at h2
  injection h2 with ha2 hs2
  subst ha2
  subst hs2
  have hfilter : (st.rows).filter (fun r => r.id == A.id) = [] := by
    rw [List.filter_eq_nil_iff]
    intro r hr
    simpa using hfresh r hr
  have hrowid : ((agentToRow A).id == A.id) = true := by
    simp [agentToRow]
  have hbump : bumpUsage A.id (agentToRow A) =
      { agentToRow A with usage_count := 1 } := by
    unfold bumpUsage
    rw [if_pos (show (agentToRow A).id = A.id from rfl)]
    rfl
  refine ⟨rfl, ?_, ?_⟩
  · rw [List.filter_append, hfilter, List.nil_append, List.filter_cons,
      if_pos hrowid]
    rfl
  · show ((incrementUsage (st.rows ++ [agentToRow A]) A.id).filter
        (fun r => r.id == A.id)).map (fun r => r.usage_count) = [1]
    rw [incrementUsage,
      filter_map_comm (bumpUsage A.id) (fun r => r.id == A.id)
        (fun r => by simp only [bumpUsage_id]),
      List.filter_append, hfilter, List.nil_append, List.filter_cons,
      if_pos hrowid, List.filter_nil, List.map_cons, List.map_cons,
      List.map_nil, List.map_nil, hbump]

/-- C3 (witness): two identical requests against an empty factory state
return the id `agent_x_5` twice, keep a single row for it, and move its
usage count from 0 to 1. -/
theorem createAgent_cached_identity_witness :
    (⟨"agent_x_5", "Agent X", "dom", ["e"], "sp", ["c"], 5, "t"⟩ :
        DynamicAgent).id = "agent_x_5" ∧
    ((⟨[("dom-a-b", ⟨"agent_x_5", "Agent X", "dom", ["e"], "sp", ["c"], 5, "t"⟩),
        ("agent_x_5", ⟨"agent_x_5", "Agent X", "dom", ["e"], "sp", ["c"], 5, "t"⟩)],
       [⟨"agent_x_5", "Agent X", "dom", ["e"], "sp", ["c"], 5, "t", 0, 0⟩]⟩ :
        FactoryState).rows.filter (fun r => r.id == "agent_x_5")).map
      (fun r => r.usage_count) = [0] ∧
    ((⟨[("dom-a-b", ⟨"agent_x_5", "Agent X", "dom", ["e"], "sp", ["c"], 5, "t"⟩),
        ("agent_x_5", ⟨"agent_x_5", "Agent X", "dom", ["e"], "sp", ["c"], 5, "t"⟩)],
       [⟨"agent_x_5", "Agent X", "dom", ["e"], "sp", ["c"], 5, "t", 1, 0⟩]⟩ :
        FactoryState).rows.filter (fun r => r.id == "agent_x_5")).map
      (fun r => r.usage_count) = [1] :=
  createAgent_cached_identity ⟨[], []⟩ "t" "dom" ["b", "a"]
    ⟨"Agent X", "dom", ["e"], ["c"], "sp"⟩ ⟨"Other", "d2", [], [], "x"⟩ 5 9
    ⟨"agent_x_5", "Agent X", "dom", ["e"], "sp", ["c"], 5, "t"⟩
    ⟨"agent_x_5", "Agent X", "dom", ["e"], "sp", ["c"], 5, "t"⟩
    ⟨[("dom-a-b", ⟨"agent_x_5", "Agent X", "dom", ["e"], "sp", ["c"], 5, "t"⟩),
      ("agent_x_5", ⟨"agent_x_5", "Agent X", "dom", ["e"], "sp", ["c"], 5, "t"⟩)],
     [⟨"agent_x_5", "Agent X", "dom", ["e"], "sp", ["c"], 5, "t", 0, 0⟩]⟩
    ⟨[("dom-a-b", ⟨"agent_x_5", "Agent X", "dom", ["e"], "sp", ["c"], 5, "t"⟩),
      ("agent_x_5", ⟨"agent_x_5", "Agent X", "dom", ["e"], "sp", ["c"], 5, "t"⟩)],
     [⟨"agent_x_5", "Agent X", "dom", ["e"], "sp", ["c"], 5, "t", 1, 0⟩]⟩
    (by decide) (by decide) (by decide) (by decide)

theorem applyRate_id (agentId : String) (rate : ℚ) (r : AgentRow) :
    (applyRate agentId rate r).id = r.id := by
  unfold applyRate
  split <;> rfl

theorem getRow_updateSuccessRate (rows : List AgentRow) (agentId : String)
    (success : Bool) (row : AgentRow) (hr : getRow rows agentId = some row) :
    getRow (updateSuccessRate rows agentId success) agentId =
      some { row with
             success_rate := (row.success_rate * (row.usage_count : ℚ) +
                 (if success then 1 else 0)) / ((row.usage_count : ℚ) + 1)
             usage_count := row.usage_count + 1 } := by
  simp only [updateSuccessRate, hr]
  unfold getRow at hr ⊢
  rw [find?_map_comm _ _ (fun r => by simp only [applyRate_id]), hr]
  have hid : row.id = agentId := by simpa using List.find?_some hr
  show some (applyRate agentId _ row) = _
  unfold applyRate
  rw [if_pos hid]

/-- C4: for an agent cached under `agentId` whose persisted row has
usage count `n` and success rate `r`, `evolveAgent` always updates the
persisted success rate to `(r*n + (success ? 1 : 0)) / (n + 1)` and the
usage count to `n + 1`; and whenever `r ∈ [0,1]` the updated rate stays
in `[0,1]`. -/
theorem evolveAgent_success_rate_mean
    (st : FactoryState) (agentId : String) (success : Bool)
    (improvements : List String) (improvedPrompt : String) (now : Nat)
    (agent : DynamicAgent) (row : AgentRow)
    (hc : mapGet st.cache agentId = some agent)
    (hr : getRow st.rows agentId = some row) :
    (∃ res, evolveAgent st agentId success improvements improvedPrompt now =
        Except.ok res ∧
      getRow res.2.rows agentId =
        some { row with
               success_rate := (row.success_rate * (row.usage_count : ℚ) +
                   (if success then 1 else 0)) / ((row.usage_count : ℚ) + 1)
               usage_count := row.usage_count + 1 }) ∧
    (0 ≤ row.success_rate → row.success_rate ≤ 1 →
      0 ≤ (row.success_rate * (row.usage_count : ℚ) +
          (if success then 1 else 0)) / ((row.usage_count : ℚ) + 1) ∧
      (row.success_rate * (row.usage_count : ℚ) +
          (if success then 1 else 0)) / ((row.usage_count : ℚ) + 1) ≤ 1) := by
  constructor
  · have hupd := getRow_updateSuccessRate st.rows agentId success row hr
    by_cases himp : improvements.isEmpty
    · refine ⟨(agent, ⟨st.cache, updateSuccessRate st.rows agentId success⟩),
        ?_, hupd⟩
      simp only [evolveAgent, hc, himp, if_true]
    · have himp' : improvements.isEmpty = false := by
        simpa using himp
      refine ⟨({ agent with
                 id := agent.id ++ "-v" ++ toString now
                 prompt := improvedPrompt
                 createdAt := now },
        ⟨mapSet st.cache (agent.id ++ "-v" ++ toString now)
            { agent with
              id := agent.id ++ "-v" ++ toString now
              prompt := improvedPrompt
              createdAt := now },
         updateSuccessRate st.rows agentId success ++
           [agentToRow { agent with
                         id := agent.id ++ "-v" ++ toString now
                         prompt := improvedPrompt
                         createdAt := now }]⟩), ?_, ?_⟩
      · simp only [evolveAgent, hc, himp', Bool.false_eq_true, if_false]
      · show getRow (updateSuccessRate st.rows agentId success ++ _) agentId = _
        unfold getRow at hupd ⊢
        rw [List.find?_append, hupd]
        rfl
  · intro h0 h1
    have hn : (0 : ℚ) ≤ (row.usage_count : ℚ) := Nat.cast_nonneg _
    have hb0 : (0 : ℚ) ≤ (if success then 1 else 0) := by split <;> norm_num
    have hb1 : ((if success then 1 else 0) : ℚ) ≤ 1 := by split <;> norm_num
    constructor
    · apply div_nonneg
      · have := mul_nonneg h0 hn
        linarith
      · linarith
    · rw [div_le_one (by linarith)]
      have := mul_le_of_le_one_left hn h1
      linarith

/-- C4 (witness): prior state `{usage_count: 3, success_rate: 0.5}` with
`success = true` yields the persisted success rate `0.625` and usage
count 4. -/
theorem evolveAgent_success_rate_mean_witness :
    ∃ res, evolveAgent
        ⟨[("a1", ⟨"a1", "N", "d", [], "p", [], 0, "t"⟩)],
         [⟨"a1", "N", "d", [], "p", [], 0, "t", 3, (0.5 : ℚ)⟩]⟩
        "a1" true [] "" 7 = Except.ok res ∧
      getRow res.2.rows "a1" =
        some ⟨"a1", "N", "d", [], "p", [], 0, "t", 4, (0.625 : ℚ)⟩ := by
  obtain ⟨res, heq, hrow⟩ :=
    (evolveAgent_success_rate_mean
      ⟨[("a1", ⟨"a1", "N", "d", [], "p", [], 0, "t"⟩)],
       [⟨"a1", "N", "d", [], "p", [], 0, "t", 3, (0.5 : ℚ)⟩]⟩
      "a1" true [] "" 7
      ⟨"a1", "N", "d", [], "p", [], 0, "t"⟩
      ⟨"a1", "N", "d", [], "p", [], 0, "t", 3, (0.5 : ℚ)⟩
      (by rfl) (by rfl)).1
  refine ⟨res, heq, hrow.trans ?_⟩
  simp only [Option.some.injEq, AgentRow.mk.injEq]
  norm_num

/-- C10: with a non-empty improvements list, `evolveAgent` returns an
evolved agent whose id is `<originalId>-v<now>`, whose prompt is the
improved text, whose creation time is fresh, and whose other fields copy
the original; the evolved row is inserted with the column defaults
usage 0 and rate 0; and every row other than the original agent's is
carried over unchanged (the statistics update touches only the original
row). -/
theorem evolveAgent_evolution_frame
    (st : FactoryState) (agentId : String) (success : Bool)
    (improvements : List String) (improvedPrompt : String) (now : Nat)
    (agent : DynamicAgent)
    (hc : mapGet st.cache agentId = some agent)
    (himp : improvements ≠ []) :
    ∃ res, evolveAgent st agentId success improvements improvedPrompt now =
        Except.ok res ∧
      res.1 = { agent with
                id := agent.id ++ "-v" ++ toString now
                prompt := improvedPrompt
                createdAt := now } ∧
      res.2.rows = updateSuccessRate st.rows agentId success ++
        [agentToRow res.1] ∧
      (agentToRow res.1).usage_count = 0 ∧
      (agentToRow res.1).success_rate = 0 ∧
      (∀ r ∈ st.rows, r.id ≠ agentId → r ∈ res.2.rows) := by
  have himp' : improvements.isEmpty = false := by
    cases improvements with
    | nil => exact absurd rfl himp
    | cons a l => rfl
  refine ⟨({ agent with
             id := agent.id ++ "-v" ++ toString now
             prompt := improvedPrompt
             createdAt := now },
    ⟨mapSet st.cache (agent.id ++ "-v" ++ toString now)
        { agent with
          id := agent.id ++ "-v" ++ toString now
          prompt := improvedPrompt
          createdAt := now },
     updateSuccessRate st.rows agentId success ++
       [agentToRow { agent with
                     id := agent.id ++ "-v" ++ toString now
                     prompt := improvedPrompt
                     createdAt := now }]⟩), ?_, rfl, rfl, rfl, rfl, ?_⟩
  · simp only [evolveAgent, hc, himp', Bool.false_eq_true, if_false]
  · intro r hrmem hrid
    apply List.mem_append_left
    unfold updateSuccessRate
    cases hg : getRow st.rows agentId with
    | none => exact hrmem
    | some stats =>
        refine List.mem_map.mpr ⟨r, hrmem, ?_⟩
        unfold applyRate
        rw [if_neg hrid]

/-- C10 (witness): evolving the cached agent `a1` with one improvement
produces the id `a1-v7`, the new prompt, and a zero-statistics evolved
row. -/
theorem evolveAgent_evolution_frame_witness :
    ∃ res, evolveAgent
        ⟨[("a1", ⟨"a1", "N", "d", ["e"], "p", ["c"], 0, "t"⟩)],
         [⟨"a1", "N", "d", ["e"], "p", ["c"], 0, "t", 3, (0.5 : ℚ)⟩]⟩
        "a1" true ["be better"] "new prompt" 7 = Except.ok res ∧
      res.1 = ⟨"a1-v7", "N", "d", ["e"], "new prompt", ["c"], 7, "t"⟩ ∧
      (agentToRow res.1).usage_count = 0 ∧
      (agentToRow res.1).success_rate = 0 := by
  obtain ⟨res, heq, hagent, hrows, hu, hs, hframe⟩ :=
    evolveAgent_evolution_frame
      ⟨[("a1", ⟨"a1", "N", "d", ["e"], "p", ["c"], 0, "t"⟩)],
       [⟨"a1", "N", "d", ["e"], "p", ["c"], 0, "t", 3, (0.5 : ℚ)⟩]⟩
      "a1" true ["be better"] "new prompt" 7
      ⟨"a1", "N", "d", ["e"], "p", ["c"], 0, "t"⟩
      (by rfl) (by decide)
  exact ⟨res, heq, hagent.trans (by decide), hu, hs⟩

/-- C9: when every whitespace-separated word of the task is at most 3
characters long, the keyword list is empty and `findRelevantSuccesses`
fails with a query error instead of returning an empty list; the
empty-result behavior is available only when at least one keyword
longer than 3 characters exists. -/
theorem findRelevantSuccesses_short_words (task : String) (table : List MemRow) :
    ((∀ w ∈ splitSpace (toLowerStr task), w.length ≤ 3) →
      isErr (findRelevantSuccesses task table) = true) ∧
    (memKeywords task ≠ [] →
      isErr (findRelevantSuccesses task table) = false) := by
  constructor
  · intro h
    have hk : memKeywords task = [] := by
      unfold memKeywords
      rw [List.filter_eq_nil_iff]
      intro w hw
      have := h w hw
      simp only [decide_eq_true_eq]
      omega
    simp only [findRelevantSuccesses, hk, List.isEmpty_nil, if_true, isErr]
  · intro h
    have hk : (memKeywords task).isEmpty = false := by
      cases hmk : memKeywords task with
      | nil => exact absurd hmk h
      | cons a l => rfl
    simp only [findRelevantSuccesses, hk, Bool.false_eq_true, if_false, isErr]

/-- C9 (witness): the task `"fix the css"` (all words of length 3)
produces a query error even against an empty table. -/
theorem findRelevantSuccesses_short_words_witness :
    isErr (findRelevantSuccesses "fix the css" []) = true :=
  (findRelevantSuccesses_short_words "fix the css" []).1 (by decide)

/-- C8: `storeSuccess` runs only after Phase 3 has saved the output
file, so when any of the Phase 0–3 external calls fails the run aborts
with the memory store — session list and persistent table —
unchanged. -/
theorem runLoop_no_memory_on_failure (extractSyn : String → String)
    (st : OrchState) (task : String) (inp : RunInputs)
    (h : anyPhaseFailure inp st.mem.table task = true) :
    (runLoop extractSyn st task inp).2.mem = st.mem ∧
    isErr (runLoop extractSyn st task inp).1 = true := by
  simp only [runLoop]
  cases haq : inp.askQuestionsRes with
  | error e => exact ⟨rfl, rfl⟩
  | ok answers =>
  cases hf : findRelevantSuccesses task st.mem.table with
  | error e => exact ⟨rfl, rfl⟩
  | ok seeds =>
  cases h1 : inp.round1Res with
  | error e => exact ⟨rfl, rfl⟩
  | ok r1 =>
  cases h2 : inp.round2Res with
  | error e => exact ⟨rfl, rfl⟩
  | ok r2 =>
  cases hf2 : inp.feedback2Res with
  | error e => exact ⟨rfl, rfl⟩
  | ok fb2 =>
  cases h3 : inp.round3Res with
  | error e => exact ⟨rfl, rfl⟩
  | ok r3 =>
  cases hf3 : inp.feedback3Res with
  | error e => exact ⟨rfl, rfl⟩
  | ok fb3 =>
  cases ht : inp.techRes with
  | error e => exact ⟨rfl, rfl⟩
  | ok tr =>
  cases hfo : inp.formatRes with
  | error e => exact ⟨rfl, rfl⟩
  | ok fr =>
  cases hs : inp.saveRes with
  | error e => exact ⟨rfl, rfl⟩
  | ok path =>
  simp [anyPhaseFailure, haq, hf, h1, h2, hf2, h3, hf3, ht, hfo, hs, isErr] at h

/-- C8 (witness): with the second conceptual round failing, the run
aborts and the sample memory state is returned untouched. -/
theorem runLoop_no_memory_on_failure_witness :
    (runLoop (fun s => s) ⟨sampleMem, []⟩ "implement auth flow"
        sampleFailingInputs).2.mem = sampleMem ∧
    isErr (runLoop (fun s => s) ⟨sampleMem, []⟩ "implement auth flow"
        sampleFailingInputs).1 = true :=
  runLoop_no_memory_on_failure (fun s => s) ⟨sampleMem, []⟩
    "implement auth flow" sampleFailingInputs (by decide)

end CreativePrompt
